import Mathlib

/-!
Shallow embedding of `kitelogin.py` (class `KiteLogin`): the credential
loader `__get_login_details`, the element-wait helpers
(`_get_element_by_css`, `_find_error`, `_raise_error`, `_click_submit`,
`quit`) and the login state machine `__login`, together with the parts of
the Python standard library the code calls (`urllib.parse.urlparse` /
`parse_qs` restricted to query extraction, and `json.loads` restricted to
the flat string-object fragment the portal's error bodies use).

The browser driver is modelled as an environment (`Env`) recording, for
each element lookup the code performs and each read of
`driver.current_url`, what the page supplies at that point.  Element
waits are modelled by the time at which the element becomes present
(`ElementSpec.appearsAt`, `none` = never); a wait succeeds exactly when
that time is within the fixed timeout.  `time.sleep` calls and log/print
side effects have no observable effect on the values the claims are
about and are not modelled; the session lifecycle is tracked as the
number of `quit` calls performed on the run.
-/

set_option autoImplicit false

namespace KiteLogin

/-- Python exception values that can escape `KiteLogin.__login` and its
helpers: `selenium TimeoutException` from an element wait,
`AssertionError` from the invalid-api-key assert, `ValueError` from
`_raise_error`, `KeyError` from a dict subscript, `json.JSONDecodeError`
from `json.loads`, and `IndexError` from `body[0]` on an empty string. -/
inductive PyError where
  | timeoutException
  | assertionError (msg : String)
  | valueError (msg : String)
  | keyError (key : String)
  | jsonDecodeError
  | indexError
  deriving DecidableEq, Repr

/-- One element lookup point as the page supplies it: the time at which
the element becomes present (`none` = it never appears) and its `.text`
once present. -/
structure ElementSpec where
  appearsAt : Option Nat
  text : String
  deriving DecidableEq, Repr

/-- `self.timeout = 5` set in `KiteLogin.__init__`. -/
def timeout : Nat := 5

/-- `_get_element_by_css`: `WebDriverWait(self.driver, self.timeout).until(
presence_of_element_located(...))` — blocks until the element appears,
at most `timeout` time units; returns the element's text on success and
raises `TimeoutException` otherwise. -/
def _get_element_by_css (e : ElementSpec) : Except PyError String :=
  match e.appearsAt with
  | some t => if t ≤ timeout then .ok e.text else .error .timeoutException
  | none => .error .timeoutException

/-- Whether an element lookup finds the element within the timeout. -/
def foundB (e : ElementSpec) : Bool :=
  match e.appearsAt with
  | some t => t ≤ timeout
  | none => false

/-- `_find_error`: returns `.error` element's text, or `None` when the
wait raised `TimeoutException`. -/
def _find_error (e : ElementSpec) : Option String :=
  match _get_element_by_css e with
  | .ok s => some s
  | .error _ => none

/-- `_raise_error`: `has_error = self._find_error()`; on a truthy result
(a non-empty string) it logs, quits and raises `ValueError(has_error)`.
Modelled as the message of the `ValueError` to be raised, `none` when
nothing is raised. -/
def _raise_error (e : ElementSpec) : Option String :=
  match _find_error e with
  | some t => if t = "" then none else some t
  | none => none

/-! ### `json.loads(body)['message']`

Modelled on the fragment of JSON the portal's error bodies use: a single
flat object with string keys and string values, no escape sequences.
Inputs outside the fragment are a parse failure (`JSONDecodeError`).
As in Python, a duplicated key keeps its last value, and surrounding
JSON whitespace (space, tab, newline, carriage return) is accepted. -/

/-- JSON whitespace as accepted by `json.loads`. -/
def jsonWs (c : Char) : Bool :=
  c = ' ' || c = '\t' || c = '\n' || c = '\r'

/-- Drop leading JSON whitespace. -/
def skipWs : List Char → List Char
  | [] => []
  | c :: cs => if jsonWs c then skipWs cs else c :: cs

/-- Parse a JSON string literal (no escape sequences) and return it with
the remaining input. -/
def parseJString : List Char → Option (String × List Char)
  | '"' :: rest => parseJStringGo rest []
  | _ => none
where
  parseJStringGo : List Char → List Char → Option (String × List Char)
    | [], _ => none
    | '"' :: rest, acc => some (⟨acc.reverse⟩, rest)
    | '\\' :: _, _ => none
    | c :: rest, acc => parseJStringGo rest (c :: acc)

/-- Parse the members of a JSON object after the opening brace, fuelled
by the input length. -/
def parseJPairs : Nat → List Char → List (String × String) →
    Option (List (String × String) × List Char)
  | 0, _, _ => none
  | fuel + 1, cs, acc =>
    match parseJString (skipWs cs) with
    | none => none
    | some (k, rest) =>
      match skipWs rest with
      | ':' :: rest2 =>
        match parseJString (skipWs rest2) with
        | none => none
        | some (v, rest3) =>
          match skipWs rest3 with
          | ',' :: rest4 => parseJPairs fuel rest4 ((k, v) :: acc)
          | '}' :: rest5 => some (((k, v) :: acc).reverse, rest5)
          | _ => none
      | _ => none

/-- `json.loads` on the flat string-object fragment: `none` models
`JSONDecodeError`. -/
def json_loads_obj (s : String) : Option (List (String × String)) :=
  match skipWs s.data with
  | '{' :: rest =>
    match skipWs rest with
    | '}' :: rest2 => if (skipWs rest2).isEmpty then some [] else none
    | _ =>
      match parseJPairs (s.length + 1) rest [] with
      | some (ps, rest2) => if (skipWs rest2).isEmpty then some ps else none
      | none => none
  | _ => none

/-- Python dict lookup on the parsed object: the last binding of a key
wins, as for duplicate keys in `json.loads`. -/
def dictFind (d : List (String × String)) (k : String) : Option String :=
  ((d.filter fun p => p.1 == k).getLast?).map Prod.snd

/-- `json.loads(body)['message']`: `JSONDecodeError` when the body is not
(fragment) JSON, `KeyError('message')` when the object has no `message`
member. -/
def json_loads_message (s : String) : Except PyError String :=
  match json_loads_obj s with
  | none => .error .jsonDecodeError
  | some d =>
    match dictFind d "message" with
    | some m => .ok m
    | none => .error (.keyError "message")

/-! ### `urllib.parse.urlparse(url).query` and `parse_qs`

`urlparse` extracts the query as the part of the URL after the first
`?`, taken after first removing the part from the first `#` on.
`parse_qs(qs)` (defaults: `keep_blank_values=False`, separator `&`)
splits the query on `&`, drops empty fields, fields without `=` and
fields with an empty value, applies `+`-to-space then percent-decoding
to names and values, and groups the values per name in order.  Percent
escapes are decoded bytewise (adequate for the token alphabet; Python
additionally UTF-8-decodes multi-byte sequences). -/

/-- Split a character list at every occurrence of `c` (Python
`str.split(c)` on a one-character separator). -/
def splitOnChar (c : Char) : List Char → List (List Char)
  | [] => [[]]
  | x :: xs =>
    match splitOnChar c xs with
    | [] => [[]]
    | f :: fs => if x = c then [] :: f :: fs else (x :: f) :: fs

/-- Split at the first occurrence of `c` (Python `str.split(c, 1)`),
`none` when `c` does not occur. -/
def splitFirst (c : Char) : List Char → Option (List Char × List Char)
  | [] => none
  | x :: xs =>
    if x = c then some ([], xs)
    else
      match splitFirst c xs with
      | none => none
      | some (a, b) => some (x :: a, b)

/-- Value of a hexadecimal digit. -/
def hexVal (c : Char) : Option Nat :=
  if '0' ≤ c ∧ c ≤ '9' then some (c.toNat - '0'.toNat)
  else if 'a' ≤ c ∧ c ≤ 'f' then some (c.toNat - 'a'.toNat + 10)
  else if 'A' ≤ c ∧ c ≤ 'F' then some (c.toNat - 'A'.toNat + 10)
  else none

/-- `urllib.parse.unquote`, bytewise: each `%` followed by two hex
digits becomes the character of that code; a `%` not followed by two
hex digits is kept literally. -/
def unquoteL : List Char → List Char
  | [] => []
  | '%' :: h1 :: h2 :: rest =>
    match hexVal h1, hexVal h2 with
    | some d1, some d2 => Char.ofNat (16 * d1 + d2) :: unquoteL rest
    | _, _ => '%' :: unquoteL (h1 :: h2 :: rest)
  | '%' :: rest => '%' :: unquoteL rest
  | c :: cs => c :: unquoteL cs

/-- `+`-to-space then `unquote`, as `parse_qsl` applies to each name and
value. -/
def unquote_plus (l : List Char) : List Char :=
  unquoteL (l.map fun c => if c = '+' then ' ' else c)

/-- One `name=value` field of the query string, as `parse_qsl` treats
it with `keep_blank_values=False`: empty fields, fields without `=` and
fields with an empty value are dropped. -/
def parseField (f : List Char) : Option (String × String) :=
  if f.isEmpty then none
  else
    match splitFirst '=' f with
    | none => none
    | some (name, value) =>
      if value.isEmpty then none
      else some (⟨unquote_plus name⟩, ⟨unquote_plus value⟩)

/-- `urllib.parse.parse_qsl` with its defaults: the ordered list of
decoded `(name, value)` pairs of the query string. -/
def parse_qsl (qs : String) : List (String × String) :=
  (splitOnChar '&' qs.data).filterMap parseField

/-- The values `parse_qs(qs)` associates to `key`, in order; `parse_qs`
has `key` in its dict exactly when this list is non-empty. -/
def parse_qs_values (qs key : String) : List String :=
  (parse_qsl qs).filterMap fun p => if p.1 == key then some p.2 else none

/-- `urlparse(url).query`: the part after the first `?` of the part
before the first `#`. -/
def urlparse_query (url : String) : String :=
  let beforeFrag :=
    match splitFirst '#' url.data with
    | some (a, _) => a
    | none => url.data
  match splitFirst '?' beforeFrag with
  | some (_, q) => ⟨q⟩
  | none => ""

/-! ### The login run

`Env` records what the page supplies at each driver interaction of
`__login`, in program order.  A run result is the Python outcome
(returned request token, or the exception that escaped `__login`)
paired with how many times `self.quit()` ran. -/

/-- The page environment of one `__login` run: one `ElementSpec` per
element lookup the code performs, and the three reads of
`driver.current_url` around the PIN submission. -/
structure Env where
  /-- lookup `body` after `driver.get(login_url)` -/
  body : ElementSpec
  /-- lookup `input#userid` -/
  userid : ElementSpec
  /-- lookup `input#password` -/
  password : ElementSpec
  /-- lookup `button[type=submit]` for the credential form -/
  submit1 : ElementSpec
  /-- lookup `.error` in the post-credential `_raise_error` -/
  errorBanner1 : ElementSpec
  /-- lookup `input#pin` -/
  pin : ElementSpec
  /-- `driver.current_url` read before the PIN submit -/
  urlBeforePin : String
  /-- lookup `button[type=submit]` for the PIN form -/
  submit2 : ElementSpec
  /-- `driver.current_url` read after the 0.5s settle delay -/
  urlAfterPin : String
  /-- lookup `.error` in the post-PIN `_raise_error` -/
  errorBanner2 : ElementSpec
  /-- `driver.current_url` read again after the further settle delay -/
  urlFinal : String
  deriving DecidableEq, Repr

deriving instance DecidableEq for Except

/-- Outcome of one `KiteLogin` run: the value `__login` returned or the
exception that escaped it, with the number of `self.quit()` calls. -/
structure RunResult where
  outcome : Except PyError String
  quitCount : Nat
  deriving DecidableEq, Repr

/-- Tail of `__login` from the final `current_url` read on:
`parse_qs(urlparse(current_url).query)['request_token'][0]`, then
`self.quit()` and return.  A missing `request_token` key raises
`KeyError` from the unguarded subscript before any `quit`. -/
def loginFromToken (env : Env) : RunResult :=
  match parse_qs_values (urlparse_query env.urlFinal) "request_token" with
  | [] => ⟨.error (.keyError "request_token"), 0⟩
  | v :: _ => ⟨.ok v, 1⟩

/-- `__login` from the `input#pin` lookup on: send the PIN, record
`current_url`, click submit, and after the settle delay compare URLs;
if unchanged run `_raise_error` (a truthy banner text quits and raises
`ValueError`), then extract the token. -/
def loginFromPin (env : Env) : RunResult :=
  match _get_element_by_css env.pin with
  | .error e => ⟨.error e, 0⟩
  | .ok _ =>
    match _get_element_by_css env.submit2 with
    | .error e => ⟨.error e, 0⟩
    | .ok _ =>
      if env.urlAfterPin = env.urlBeforePin then
        match _raise_error env.errorBanner2 with
        | some t => ⟨.error (.valueError t), 1⟩
        | none => loginFromToken env
      else loginFromToken env

/-- `__login` from the `input#userid` lookup on: locate the credential
fields, send keys, click submit, then `_raise_error` (a truthy banner
text quits and raises `ValueError`), then the PIN step. -/
def loginFromCreds (env : Env) : RunResult :=
  match _get_element_by_css env.userid with
  | .error e => ⟨.error e, 0⟩
  | .ok _ =>
    match _get_element_by_css env.password with
    | .error e => ⟨.error e, 0⟩
    | .ok _ =>
      match _get_element_by_css env.submit1 with
      | .error e => ⟨.error e, 0⟩
      | .ok _ =>
        match _raise_error env.errorBanner1 with
        | some t => ⟨.error (.valueError t), 1⟩
        | none => loginFromPin env

/-- `KiteLogin.__login`: navigate, read the body text and run
`assert (body[0] != "\x7b" and body[-1] != "\x7d"), json.loads(body)['message']`
inside `try/except AssertionError` (which logs, quits and re-raises the
`AssertionError`; any other exception from the assert propagates
without a quit), then the credential, PIN and token stages. -/
def login (env : Env) : RunResult :=
  match _get_element_by_css env.body with
  | .error e => ⟨.error e, 0⟩
  | .ok b =>
    match b.data with
    | [] => ⟨.error .indexError, 0⟩
    | c :: cs =>
      if c ≠ '{' ∧ cs.getLastD c ≠ '}' then loginFromCreds env
      else
        match json_loads_message b with
        | .ok m => ⟨.error (.assertionError m), 1⟩
        | .error e => ⟨.error e, 0⟩

/-! ### The credential loader `__get_login_details` -/

/-- What `open("login.json")` plus `json.load(file)` yield: the open
raising (missing or unreadable file), the parse raising, or the parsed
dict, restricted to string values as the credential file uses. -/
inductive LoadOutcome where
  | openError
  | parseError
  | parsed (d : List (String × String))
  deriving DecidableEq, Repr

/-- The four private credential attributes, `none` = still the `None`
set in `__init__`. -/
structure Creds where
  api_key : Option String
  username : Option String
  password : Option String
  pin : Option String
  deriving DecidableEq, Repr

/-- `__get_login_details`: inside one `try`, assign
`api_key`, `username`, `password`, `pin` from the dict in that order; any
exception (open, parse, or `KeyError` on a missing key) jumps to
`except`, which logs a warning and swallows it, keeping the assignments
already made.  The `Bool` records whether the warning was logged. -/
def get_login_details (input : LoadOutcome) : Creds × Bool :=
  match input with
  | .openError => (⟨none, none, none, none⟩, true)
  | .parseError => (⟨none, none, none, none⟩, true)
  | .parsed d =>
    match dictFind d "api_key" with
    | none => (⟨none, none, none, none⟩, true)
    | some ak =>
      match dictFind d "username" with
      | none => (⟨some ak, none, none, none⟩, true)
      | some un =>
        match dictFind d "password" with
        | none => (⟨some ak, some un, none, none⟩, true)
        | some pw =>
          match dictFind d "pin" with
          | none => (⟨some ak, some un, some pw, none⟩, true)
          | some pn => (⟨some ak, some un, some pw, some pn⟩, false)

/-! ### Basic lemmas about the element waits and the run stages -/

theorem getElement_found {e : ElementSpec} (h : foundB e = true) :
    _get_element_by_css e = .ok e.text := by
  unfold _get_element_by_css foundB at *
  cases he : e.appearsAt with
  | none => simp [he] at h
  | some t =>
    rw [he] at h
    simp only [decide_eq_true_eq] at h
    simp [he, h]

theorem getElement_notFound {e : ElementSpec} (h : foundB e = false) :
    _get_element_by_css e = .error .timeoutException := by
  unfold _get_element_by_css foundB at *
  cases he : e.appearsAt with
  | none => simp [he]
  | some t =>
    rw [he] at h
    simp only [decide_eq_false_iff_not] at h
    simp [he, h]

theorem getElement_error {e : ElementSpec} {pe : PyError}
    (h : _get_element_by_css e = .error pe) : pe = .timeoutException := by
  unfold _get_element_by_css at h
  cases he : e.appearsAt with
  | none => simp [he] at h; exact h.symm
  | some t =>
    simp [he] at h
    split at h
    · cases h
    · cases h; rfl

theorem find_error_eq (e : ElementSpec) :
    _find_error e = if foundB e then some e.text else none := by
  unfold _find_error
  by_cases h : foundB e = true
  · rw [getElement_found h, if_pos h]
  · rw [getElement_notFound (by simpa using h)]
    simp [h]

theorem raise_error_eq (e : ElementSpec) :
    _raise_error e = if foundB e = true ∧ e.text ≠ "" then some e.text else none := by
  unfold _raise_error
  rw [find_error_eq]
  by_cases h : foundB e = true
  · by_cases ht : e.text = "" <;> simp [h, ht]
  · simp [h]

/-- The body-text test of the invalid-api-key assert:
`body[0] != "\x7b" and body[-1] != "\x7d"`, i.e. the page is the HTML
login form rather than a JSON error body. -/
def bodyIsForm (b : String) : Bool :=
  match b.data with
  | [] => false
  | c :: cs => c ≠ '{' && cs.getLastD c ≠ '}'

/-- The run gets past the body check and locates the credential form. -/
def reachesCredCheck (env : Env) : Prop :=
  foundB env.body = true ∧ bodyIsForm env.body.text = true ∧
    foundB env.userid = true ∧ foundB env.password = true ∧ foundB env.submit1 = true

/-- The run passes the post-credential banner check and locates the PIN
form. -/
def reachesPin (env : Env) : Prop :=
  reachesCredCheck env ∧ _raise_error env.errorBanner1 = none ∧
    foundB env.pin = true ∧ foundB env.submit2 = true

/-- The run passes (or skips) the post-PIN banner check and reaches the
token extraction. -/
def reachesToken (env : Env) : Prop :=
  reachesPin env ∧
    (env.urlAfterPin ≠ env.urlBeforePin ∨ _raise_error env.errorBanner2 = none)

instance (env : Env) : Decidable (reachesCredCheck env) :=
  inferInstanceAs (Decidable (_ = _ ∧ _ = _ ∧ _ = _ ∧ _ = _ ∧ _ = _))

instance (env : Env) : Decidable (reachesPin env) :=
  inferInstanceAs (Decidable (reachesCredCheck env ∧ _ = _ ∧ _ = _ ∧ _ = _))

instance (env : Env) : Decidable (reachesToken env) :=
  inferInstanceAs (Decidable (reachesPin env ∧ (¬(_ = _) ∨ _ = _)))

theorem login_timeout_body {env : Env} (h : foundB env.body = false) :
    login env = ⟨.error .timeoutException, 0⟩ := by
  unfold login
  rw [getElement_notFound h]

theorem login_empty_body {env : Env} (h1 : foundB env.body = true)
    (h2 : env.body.text = "") : login env = ⟨.error .indexError, 0⟩ := by
  unfold login
  rw [getElement_found h1]
  have : env.body.text.data = [] := by rw [h2]
  simp [this]

theorem login_eq_creds {env : Env} (h1 : foundB env.body = true)
    (h2 : bodyIsForm env.body.text = true) : login env = loginFromCreds env := by
  unfold login
  rw [getElement_found h1]
  unfold bodyIsForm at h2
  cases hd : env.body.text.data with
  | nil => rw [hd] at h2; cases h2
  | cons c cs =>
    rw [hd] at h2
    simp only [Bool.and_eq_true, decide_eq_true_eq] at h2
    simp only [hd]
    rw [if_pos h2]

theorem login_json_branch {env : Env} (h1 : foundB env.body = true)
    (h2 : env.body.text ≠ "") (h3 : bodyIsForm env.body.text = false) :
    login env =
      match json_loads_message env.body.text with
      | .ok m => ⟨.error (.assertionError m), 1⟩
      | .error e => ⟨.error e, 0⟩ := by
  unfold login
  rw [getElement_found h1]
  unfold bodyIsForm at h3
  cases hd : env.body.text.data with
  | nil =>
    exact absurd (String.ext hd) h2
  | cons c cs =>
    rw [hd] at h3
    have hneg : ¬(c ≠ '{' ∧ cs.getLastD c ≠ '}') := by
      intro hc
      have h3' : (decide (c ≠ '{') && decide (cs.getLastD c ≠ '}')) = false := h3
      rw [decide_eq_true hc.1, decide_eq_true hc.2] at h3'
      simp at h3'
    simp only [hd]
    rw [if_neg hneg]

theorem creds_step {env : Env} (hu : foundB env.userid = true)
    (hp : foundB env.password = true) (hs : foundB env.submit1 = true) :
    loginFromCreds env =
      match _raise_error env.errorBanner1 with
      | some t => ⟨.error (.valueError t), 1⟩
      | none => loginFromPin env := by
  unfold loginFromCreds
  rw [getElement_found hu, getElement_found hp, getElement_found hs]

theorem pin_step {env : Env} (hp : foundB env.pin = true)
    (hs : foundB env.submit2 = true) :
    loginFromPin env =
      if env.urlAfterPin = env.urlBeforePin then
        match _raise_error env.errorBanner2 with
        | some t => ⟨.error (.valueError t), 1⟩
        | none => loginFromToken env
      else loginFromToken env := by
  unfold loginFromPin
  rw [getElement_found hp, getElement_found hs]

theorem login_reaches_pin {env : Env} (h : reachesPin env) :
    login env = loginFromPin env := by
  obtain ⟨⟨hb, hf, hu, hp, hs⟩, hban, _, _⟩ := h
  rw [login_eq_creds hb hf, creds_step hu hp hs, hban]

theorem login_reaches_token {env : Env} (h : reachesToken env) :
    login env = loginFromToken env := by
  obtain ⟨hpin, hurl⟩ := h
  rw [login_reaches_pin hpin, pin_step hpin.2.2.1 hpin.2.2.2]
  rcases hurl with h | h
  · rw [if_neg h]
  · by_cases hu : env.urlAfterPin = env.urlBeforePin
    · rw [if_pos hu, h]
    · rw [if_neg hu]

/-! ### Shapes of the outcomes each stage can produce -/

theorem json_loads_message_error {s : String} {e : PyError}
    (h : json_loads_message s = .error e) :
    e = .jsonDecodeError ∨ e = .keyError "message" := by
  unfold json_loads_message at h
  cases hj : json_loads_obj s with
  | none => rw [hj] at h; cases h; exact Or.inl rfl
  | some d =>
    rw [hj] at h
    have h' : (match dictFind d "message" with
        | some m => (Except.ok m : Except PyError String)
        | none => .error (.keyError "message")) = .error e := h
    cases hm : dictFind d "message" with
    | none => rw [hm] at h'; cases h'; exact Or.inr rfl
    | some m => rw [hm] at h'; cases h'

theorem loginFromToken_shape (env : Env) :
    loginFromToken env = ⟨.error (.keyError "request_token"), 0⟩ ∨
      ∃ v, loginFromToken env = ⟨.ok v, 1⟩ := by
  unfold loginFromToken
  cases parse_qs_values (urlparse_query env.urlFinal) "request_token" with
  | nil => exact Or.inl rfl
  | cons v vs => exact Or.inr ⟨v, rfl⟩

theorem loginFromPin_shape (env : Env) :
    loginFromPin env = ⟨.error .timeoutException, 0⟩ ∨
      (∃ t, loginFromPin env = ⟨.error (.valueError t), 1⟩) ∨
      loginFromPin env = loginFromToken env := by
  unfold loginFromPin
  cases hp : _get_element_by_css env.pin with
  | error e => rw [getElement_error hp]; exact Or.inl rfl
  | ok s =>
    cases hs : _get_element_by_css env.submit2 with
    | error e => rw [getElement_error hs]; exact Or.inl rfl
    | ok s2 =>
      by_cases hu : env.urlAfterPin = env.urlBeforePin
      · rw [if_pos hu]
        cases hb : _raise_error env.errorBanner2 with
        | some t => exact Or.inr (Or.inl ⟨t, rfl⟩)
        | none => exact Or.inr (Or.inr rfl)
      · rw [if_neg hu]; exact Or.inr (Or.inr rfl)

theorem loginFromCreds_shape (env : Env) :
    loginFromCreds env = ⟨.error .timeoutException, 0⟩ ∨
      (∃ t, loginFromCreds env = ⟨.error (.valueError t), 1⟩) ∨
      loginFromCreds env = loginFromPin env := by
  unfold loginFromCreds
  cases hu : _get_element_by_css env.userid with
  | error e => rw [getElement_error hu]; exact Or.inl rfl
  | ok s =>
    cases hp : _get_element_by_css env.password with
    | error e => rw [getElement_error hp]; exact Or.inl rfl
    | ok s2 =>
      cases hs : _get_element_by_css env.submit1 with
      | error e => rw [getElement_error hs]; exact Or.inl rfl
      | ok s3 =>
        cases hb : _raise_error env.errorBanner1 with
        | some t => exact Or.inr (Or.inl ⟨t, rfl⟩)
        | none => exact Or.inr (Or.inr rfl)

theorem login_shape (env : Env) :
    login env = ⟨.error .timeoutException, 0⟩ ∨
      login env = ⟨.error .indexError, 0⟩ ∨
      login env = ⟨.error .jsonDecodeError, 0⟩ ∨
      login env = ⟨.error (.keyError "message"), 0⟩ ∨
      (∃ m, login env = ⟨.error (.assertionError m), 1⟩) ∨
      (∃ t, login env = ⟨.error (.valueError t), 1⟩) ∨
      login env = ⟨.error (.keyError "request_token"), 0⟩ ∨
      ∃ v, login env = ⟨.ok v, 1⟩ := by
  by_cases hb : foundB env.body = true
  · by_cases he : env.body.text = ""
    · exact Or.inr (Or.inl (login_empty_body hb he))
    · by_cases hf : bodyIsForm env.body.text = true
      · rw [login_eq_creds hb hf]
        rcases loginFromCreds_shape env with h | ⟨t, h⟩ | h
        · exact Or.inl h
        · exact Or.inr (Or.inr (Or.inr (Or.inr (Or.inr (Or.inl ⟨t, h⟩)))))
        · rw [h]
          rcases loginFromPin_shape env with h2 | ⟨t, h2⟩ | h2
          · exact Or.inl h2
          · exact Or.inr (Or.inr (Or.inr (Or.inr (Or.inr (Or.inl ⟨t, h2⟩)))))
          · rw [h2]
            rcases loginFromToken_shape env with h3 | ⟨v, h3⟩
            · exact Or.inr (Or.inr (Or.inr (Or.inr (Or.inr (Or.inr (Or.inl h3))))))
            · exact Or.inr (Or.inr (Or.inr (Or.inr (Or.inr (Or.inr (Or.inr ⟨v, h3⟩))))))
      · rw [login_json_branch hb he (by simpa using hf)]
        cases hj : json_loads_message env.body.text with
        | ok m => exact Or.inr (Or.inr (Or.inr (Or.inr (Or.inl ⟨m, rfl⟩))))
        | error e =>
          rcases json_loads_message_error hj with h | h
          · rw [h]; exact Or.inr (Or.inr (Or.inl rfl))
          · rw [h]; exact Or.inr (Or.inr (Or.inr (Or.inl rfl)))
  · exact Or.inl (login_timeout_body (by simpa using hb))

/-- How many `quit` calls accompany each outcome of a run: the success
path and the three detected portal-error paths close the session once;
every other escaping exception leaves it open. -/
def closedOn : Except PyError String → Nat
  | .ok _ => 1
  | .error (.assertionError _) => 1
  | .error (.valueError _) => 1
  | .error _ => 0

theorem closedOn_le_one (o : Except PyError String) : closedOn o ≤ 1 := by
  unfold closedOn
  rcases o with e | v
  · cases e <;> simp
  · simp

theorem login_quit_eq_closedOn (env : Env) :
    (login env).quitCount = closedOn (login env).outcome := by
  rcases login_shape env with h | h | h | h | ⟨m, h⟩ | ⟨t, h⟩ | h | ⟨v, h⟩ <;>
    rw [h] <;> rfl

/-! ### Query strings built from parameter lists

To state the round-trip property for the token extraction we render an
explicit parameter list into a query string and relate `parse_qs` to
the list.  `plainChar` carves out the characters that play no
delimiter or escape role in a query string, so that rendering and
parsing are inverse on them. -/

/-- A character with no delimiter or escape role in a URL query:
not `&`, `=`, `%`, `+`, `#` or `?`. -/
def plainChar (c : Char) : Bool :=
  !(c == '&' || c == '=' || c == '%' || c == '+' || c == '#' || c == '?')

/-- Every character of the string is plain. -/
def plainStr (s : String) : Bool := s.data.all plainChar

/-- Render one `name=value` query field. -/
def renderField (p : String × String) : List Char :=
  p.1.data ++ '=' :: p.2.data

/-- Render a parameter list as a query string, fields joined by `&`. -/
def renderQuery : List (String × String) → List Char
  | [] => []
  | [p] => renderField p
  | p :: ps => renderField p ++ '&' :: renderQuery ps

theorem plain_no {s : String} (h : plainStr s = true) :
    ∀ c ∈ s.data, c ≠ '&' ∧ c ≠ '=' ∧ c ≠ '%' ∧ c ≠ '+' ∧ c ≠ '#' ∧ c ≠ '?' := by
  intro c hc
  have hp := List.all_eq_true.mp h c hc
  unfold plainChar at hp
  simp only [Bool.not_eq_eq_eq_not, Bool.not_true, Bool.or_eq_false_iff,
    beq_eq_false_iff_ne] at hp
  exact ⟨hp.1.1.1.1.1, hp.1.1.1.1.2, hp.1.1.1.2, hp.1.1.2, hp.1.2, hp.2⟩

theorem splitFirst_not_mem {c : Char} {l : List Char} (h : c ∉ l) :
    splitFirst c l = none := by
  induction l with
  | nil => rfl
  | cons x xs ih =>
    simp only [List.mem_cons, not_or] at h
    unfold splitFirst
    rw [if_neg (fun he => h.1 he.symm), ih h.2]

theorem splitFirst_append {c : Char} {a : List Char} (b : List Char) (h : c ∉ a) :
    splitFirst c (a ++ c :: b) = some (a, b) := by
  induction a with
  | nil => simp [splitFirst]
  | cons x xs ih =>
    simp only [List.mem_cons, not_or] at h
    show splitFirst c (x :: (xs ++ c :: b)) = some (x :: xs, b)
    unfold splitFirst
    rw [if_neg (fun he => h.1 he.symm), ih h.2]

theorem splitOnChar_ne_nil (c : Char) (l : List Char) : splitOnChar c l ≠ [] := by
  cases l with
  | nil => simp [splitOnChar]
  | cons x xs =>
    unfold splitOnChar
    cases splitOnChar c xs with
    | nil => simp
    | cons f fs => by_cases hx : x = c <;> simp [hx]

theorem splitOnChar_not_mem {c : Char} {l : List Char} (h : c ∉ l) :
    splitOnChar c l = [l] := by
  induction l with
  | nil => rfl
  | cons x xs ih =>
    simp only [List.mem_cons, not_or] at h
    have hx : ¬(x = c) := fun he => h.1 he.symm
    conv_lhs => rw [splitOnChar]
    rw [ih h.2]
    simp [hx]

theorem splitOnChar_append {c : Char} {a : List Char} (b : List Char) (h : c ∉ a) :
    splitOnChar c (a ++ c :: b) = a :: splitOnChar c b := by
  induction a with
  | nil =>
    show splitOnChar c (c :: b) = [] :: splitOnChar c b
    conv_lhs => rw [splitOnChar]
    cases hb : splitOnChar c b with
    | nil => exact absurd hb (splitOnChar_ne_nil c b)
    | cons f fs => simp
  | cons x xs ih =>
    simp only [List.mem_cons, not_or] at h
    have hx : ¬(x = c) := fun he => h.1 he.symm
    show splitOnChar c (x :: (xs ++ c :: b)) = (x :: xs) :: splitOnChar c b
    conv_lhs => rw [splitOnChar]
    rw [ih h.2]
    simp [hx]

theorem unquoteL_cons_ne {c : Char} (cs : List Char) (h : c ≠ '%') :
    unquoteL (c :: cs) = c :: unquoteL cs := by
  cases cs with
  | nil => simp [unquoteL, h]
  | cons d ds =>
    cases ds with
    | nil => simp [unquoteL, h]
    | cons e es => simp [unquoteL, h]

theorem unquoteL_plain {l : List Char} (h : ∀ c ∈ l, c ≠ '%') : unquoteL l = l := by
  induction l with
  | nil => rfl
  | cons c cs ih =>
    rw [unquoteL_cons_ne cs (h c (List.mem_cons_self c cs)),
      ih fun d hd => h d (List.mem_cons_of_mem c hd)]

theorem map_eq_self_of_fix {l : List Char} {f : Char → Char}
    (h : ∀ c ∈ l, f c = c) : l.map f = l := by
  induction l with
  | nil => rfl
  | cons c cs ih =>
    simp only [List.map_cons, List.cons.injEq]
    exact ⟨h c (List.mem_cons_self c cs),
      ih fun d hd => h d (List.mem_cons_of_mem c hd)⟩

theorem unquote_plus_plain {s : String} (h : plainStr s = true) :
    unquote_plus s.data = s.data := by
  unfold unquote_plus
  rw [map_eq_self_of_fix fun c hc => if_neg (plain_no h c hc).2.2.2.1]
  exact unquoteL_plain fun c hc => (plain_no h c hc).2.2.1

theorem string_eq_empty_iff {s : String} : s = "" ↔ s.data = [] :=
  ⟨fun h => by rw [h], fun h => String.ext h⟩

theorem renderField_no_amp {p : String × String} (h1 : plainStr p.1 = true)
    (h2 : plainStr p.2 = true) : '&' ∉ renderField p := by
  unfold renderField
  intro hmem
  rcases List.mem_append.mp hmem with h | h
  · exact (plain_no h1 _ h).1 rfl
  · rcases List.mem_cons.mp h with h | h
    · cases h
    · exact (plain_no h2 _ h).1 rfl

theorem parseField_render {p : String × String} (h1 : plainStr p.1 = true)
    (h2 : plainStr p.2 = true) :
    parseField (renderField p) = if p.2 = "" then none else some p := by
  unfold parseField renderField
  rw [if_neg (by simp)]
  rw [splitFirst_append p.2.data (fun hmem => (plain_no h1 _ hmem).2.1 rfl)]
  dsimp only
  by_cases hv : p.2 = ""
  · rw [if_pos hv]
    rw [if_pos (by rw [hv]; rfl)]
  · rw [if_neg hv]
    rw [if_neg (by
      intro hemp
      exact hv (string_eq_empty_iff.mpr (by simpa using hemp)))]
    rw [unquote_plus_plain h1, unquote_plus_plain h2]

theorem parse_qsl_render (ps : List (String × String)) :
    (∀ p ∈ ps, plainStr p.1 = true ∧ plainStr p.2 = true) →
    parse_qsl ⟨renderQuery ps⟩ = ps.filter fun p => p.2 != "" := by
  induction ps with
  | nil => intro _; rfl
  | cons p ps ih =>
    intro h
    have hp := h p (List.mem_cons_self p ps)
    have hps := fun q hq => h q (List.mem_cons_of_mem p hq)
    cases ps with
    | nil =>
      show parse_qsl ⟨renderField p⟩ = List.filter _ [p]
      unfold parse_qsl
      show List.filterMap parseField (splitOnChar '&' (renderField p)) = _
      rw [splitOnChar_not_mem (renderField_no_amp hp.1 hp.2)]
      rw [List.filterMap_cons, parseField_render hp.1 hp.2]
      by_cases hv : p.2 = ""
      · rw [if_pos hv]
        simp [List.filter_cons, hv]
      · rw [if_neg hv]
        simp [List.filter_cons, hv]
    | cons q rest =>
      have ihh := ih hps
      unfold parse_qsl at ihh ⊢
      rw [show (⟨renderQuery (q :: rest)⟩ : String).data = renderQuery (q :: rest)
        from rfl] at ihh
      show List.filterMap parseField
        (splitOnChar '&' (renderField p ++ '&' :: renderQuery (q :: rest))) = _
      rw [splitOnChar_append _ (renderField_no_amp hp.1 hp.2)]
      rw [List.filterMap_cons, parseField_render hp.1 hp.2, ihh]
      by_cases hv : p.2 = ""
      · rw [if_pos hv]
        simp [List.filter_cons, hv]
      · rw [if_neg hv]
        simp [List.filter_cons, hv]

theorem renderQuery_chars (ps : List (String × String)) :
    (∀ p ∈ ps, plainStr p.1 = true ∧ plainStr p.2 = true) →
    ∀ c ∈ renderQuery ps, c = '&' ∨ c = '=' ∨ plainChar c = true := by
  induction ps with
  | nil => intro _ c hc; cases hc
  | cons p ps ih =>
    intro h c hc
    have hp := h p (List.mem_cons_self p ps)
    have hfield : ∀ d ∈ renderField p, d = '=' ∨ plainChar d = true := by
      intro d hd
      rcases List.mem_append.mp hd with hm | hm
      · exact Or.inr (List.all_eq_true.mp hp.1 d hm)
      · rcases List.mem_cons.mp hm with hm | hm
        · exact Or.inl hm
        · exact Or.inr (List.all_eq_true.mp hp.2 d hm)
    cases ps with
    | nil =>
      rcases hfield c hc with hm | hm
      · exact Or.inr (Or.inl hm)
      · exact Or.inr (Or.inr hm)
    | cons q rest =>
      rcases List.mem_append.mp hc with hm | hm
      · rcases hfield c hm with hm2 | hm2
        · exact Or.inr (Or.inl hm2)
        · exact Or.inr (Or.inr hm2)
      · rcases List.mem_cons.mp hm with hm2 | hm2
        · exact Or.inl hm2
        · exact ih (fun r hr => h r (List.mem_cons_of_mem p hr)) c hm2

theorem urlparse_query_build {url : String} {base q : List Char}
    (hurl : url.data = base ++ '?' :: q)
    (hb : ∀ c ∈ base, c ≠ '?' ∧ c ≠ '#') (hq : '#' ∉ q) :
    urlparse_query url = ⟨q⟩ := by
  unfold urlparse_query
  rw [hurl]
  have hnf : '#' ∉ base ++ '?' :: q := by
    intro hmem
    rcases List.mem_append.mp hmem with h | h
    · exact (hb _ h).2 rfl
    · rcases List.mem_cons.mp h with h | h
      · cases h
      · exact hq h
  rw [splitFirst_not_mem hnf]
  dsimp only
  rw [splitFirst_append q (fun hm => (hb _ hm).1 rfl)]

theorem parse_qs_values_render {ps1 ps2 : List (String × String)} {tok : String}
    (hps1 : ∀ p ∈ ps1, plainStr p.1 = true ∧ plainStr p.2 = true ∧ p.1 ≠ "request_token")
    (hps2 : ∀ p ∈ ps2, plainStr p.1 = true ∧ plainStr p.2 = true)
    (ht1 : plainStr tok = true) (ht2 : tok ≠ "") :
    ∃ rest, parse_qs_values ⟨renderQuery (ps1 ++ ("request_token", tok) :: ps2)⟩
      "request_token" = tok :: rest := by
  have hall : ∀ p ∈ ps1 ++ ("request_token", tok) :: ps2,
      plainStr p.1 = true ∧ plainStr p.2 = true := by
    intro p hp
    rcases List.mem_append.mp hp with h | h
    · exact ⟨(hps1 p h).1, (hps1 p h).2.1⟩
    · rcases List.mem_cons.mp h with h | h
      · rw [h]
        exact ⟨show plainStr "request_token" = true by decide, ht1⟩
      · exact hps2 p h
  unfold parse_qs_values
  rw [parse_qsl_render _ hall]
  rw [List.filter_append, List.filterMap_append]
  have hnil : (List.filter (fun p => p.2 != "") ps1).filterMap
      (fun p => if p.1 == "request_token" then some p.2 else none) = [] := by
    rw [List.filterMap_eq_nil_iff]
    intro p hp
    have hmem := List.mem_of_mem_filter hp
    rw [if_neg (by simpa using (hps1 p hmem).2.2)]
  rw [hnil, List.nil_append]
  rw [List.filter_cons, if_pos (by simpa using ht2)]
  rw [List.filterMap_cons]
  exact ⟨_, rfl⟩

/-! ### The claims -/

/-- A page environment on which every step of the login succeeds: used
as the base point for the concrete checks below. -/
def happyEnv : Env :=
  { body := ⟨some 0, "Kite login form"⟩
  , userid := ⟨some 1, ""⟩
  , password := ⟨some 1, ""⟩
  , submit1 := ⟨some 0, "Login"⟩
  , errorBanner1 := ⟨none, ""⟩
  , pin := ⟨some 2, ""⟩
  , urlBeforePin := "https://kite.example/login/pin"
  , submit2 := ⟨some 0, "Continue"⟩
  , urlAfterPin := "https://kite.example/redirecting"
  , errorBanner2 := ⟨none, ""⟩
  , urlFinal := "https://kite.example/connect?action=login&request_token=ABC123&status=success" }

/-- Final URL with the token between other parameters and a second
`request_token` occurrence after it. -/
def tokenBetweenEnv : Env :=
  { happyEnv with urlFinal := "https://kite.example/connect?action=login&request_token=ABC123&status=success&request_token=ZZZ9" }

/-- The JSON error body with a trailing space used against C2: it
starts with a brace but ends with a space, not a brace. -/
def jsonTrailingSpaceBody : String := "\x7b\"message\": \"Invalid API key\"\x7d "

/-- Environment whose body is `jsonTrailingSpaceBody`. -/
def apikeyCexEnv : Env :=
  { happyEnv with body := ⟨some 0, jsonTrailingSpaceBody⟩ }

/-- Environment whose body is a plain JSON error object. -/
def apikeyWitnessEnv : Env :=
  { happyEnv with body := ⟨some 0, "\x7b\"message\": \"Token is invalid\"\x7d"⟩ }

/-- Post-credential banner present with empty text; the rest succeeds. -/
def emptyBanner1Env : Env :=
  { happyEnv with errorBanner1 := ⟨some 0, ""⟩, urlFinal := "https://kite.example/connect?request_token=TOK3" }

/-- Post-credential banner with a real error message. -/
def credErrorEnv : Env :=
  { happyEnv with errorBanner1 := ⟨some 1, "Invalid username or password"⟩ }

/-- URL unchanged by the PIN submission, banner present with empty
text, final URL carrying a token. -/
def pinEmptyBannerEnv : Env :=
  { happyEnv with urlAfterPin := "https://kite.example/login/pin", errorBanner2 := ⟨some 0, ""⟩, urlFinal := "https://kite.example/connect?request_token=TOK4" }

/-- URL unchanged by the PIN submission and a non-empty banner. -/
def pinErrorEnv : Env :=
  { happyEnv with urlAfterPin := "https://kite.example/login/pin", errorBanner2 := ⟨some 1, "Invalid PIN"⟩ }

/-- The username field never appears. -/
def useridMissingEnv : Env :=
  { happyEnv with userid := ⟨none, ""⟩ }

/-- The PIN field appears only after the timeout has elapsed. -/
def pinLateEnv : Env :=
  { happyEnv with pin := ⟨some 9, ""⟩ }

/-- A wrong PIN: the URL never changes and no banner is shown, so the
final URL is still the login page, without a `request_token`. -/
def wrongPinEnv : Env :=
  { happyEnv with urlAfterPin := "https://kite.example/login/pin", urlFinal := "https://kite.example/login/pin" }

/-- Post-credential banner found with empty text, for the banner-check
behaviour on its own. -/
def emptyBanner1FoundEnv : Env :=
  { happyEnv with errorBanner1 := ⟨some 3, ""⟩ }

/-- C1: on a run that reaches the token extraction, if the final
redirect URL's query string contains a `request_token` parameter, the
login returns the first value of that parameter exactly — for any
surrounding (plain-character) query parameters in any order, before or
after it. -/
theorem request_token_roundtrip (env : Env) (base : String)
    (ps1 ps2 : List (String × String)) (tok : String)
    (henv : reachesToken env)
    (hbase : ∀ c ∈ base.data, c ≠ '?' ∧ c ≠ '#')
    (hps1 : ∀ p ∈ ps1, plainStr p.1 = true ∧ plainStr p.2 = true ∧ p.1 ≠ "request_token")
    (hps2 : ∀ p ∈ ps2, plainStr p.1 = true ∧ plainStr p.2 = true)
    (ht1 : plainStr tok = true) (ht2 : tok ≠ "")
    (hurl : env.urlFinal.data
      = base.data ++ '?' :: renderQuery (ps1 ++ ("request_token", tok) :: ps2)) :
    login env = ⟨.ok tok, 1⟩ := by
  rw [login_reaches_token henv]
  unfold loginFromToken
  have hall : ∀ p ∈ ps1 ++ ("request_token", tok) :: ps2,
      plainStr p.1 = true ∧ plainStr p.2 = true := by
    intro p hp
    rcases List.mem_append.mp hp with h | h
    · exact ⟨(hps1 p h).1, (hps1 p h).2.1⟩
    · rcases List.mem_cons.mp h with h | h
      · rw [h]
        exact ⟨show plainStr "request_token" = true by decide, ht1⟩
      · exact hps2 p h
  have hq : '#' ∉ renderQuery (ps1 ++ ("request_token", tok) :: ps2) := by
    intro hmem
    rcases renderQuery_chars _ hall '#' hmem with h | h | h
    · exact absurd h (by decide)
    · exact absurd h (by decide)
    · exact absurd h (by decide)
  rw [urlparse_query_build hurl hbase hq]
  obtain ⟨rest, hv⟩ := parse_qs_values_render hps1 hps2 ht1 ht2
  rw [hv]

/-- C1 witness: a concrete run whose final URL carries the token
`ABC123` between other parameters, with a second `request_token`
occurrence after it; the first value is returned. -/
theorem request_token_roundtrip_witness :
    login tokenBetweenEnv = ⟨.ok "ABC123", 1⟩ :=
  request_token_roundtrip _ "https://kite.example/connect"
    [("action", "login")] [("status", "success"), ("request_token", "ZZZ9")] "ABC123"
    (by decide) (by decide) (by decide) (by decide) (by decide) (by decide) (by decide)

/-- C2 counterexample: on a body that does NOT both start with a brace
and end with one (it ends with a space), the code still quits and
raises the invalid-api-key `AssertionError`, because the assert fails
already when the body merely starts with a brace — the code's
condition is an OR, not the claimed AND. -/
theorem invalid_apikey_iff_cex :
    ¬(jsonTrailingSpaceBody.data.head? = some '{' ∧
        jsonTrailingSpaceBody.data.getLast? = some '}') ∧
      login apikeyCexEnv = ⟨.error (.assertionError "Invalid API key"), 1⟩ := by
  decide

/-- C2 (amended): for every page body read after navigating to the
login URL, the login quits and raises the invalid-api-key
`AssertionError` (message = the JSON body's `message` field) if and
only if the body is non-empty, starts with a brace OR ends with one
(the negation of `bodyIsForm`), and parses as JSON with a `message`
member; the quit count 1 in the result records that the session was
closed before the error propagated. -/
theorem invalid_apikey_characterization (env : Env) (hb : foundB env.body = true)
    (m : String) :
    login env = ⟨.error (.assertionError m), 1⟩ ↔
      (env.body.text ≠ "" ∧ bodyIsForm env.body.text = false ∧
        json_loads_message env.body.text = .ok m) := by
  constructor
  · intro h
    by_cases he : env.body.text = ""
    · rw [login_empty_body hb he] at h
      simp at h
    · by_cases hf : bodyIsForm env.body.text = true
      · rw [login_eq_creds hb hf] at h
        rcases loginFromCreds_shape env with hs | ⟨t, hs⟩ | hs
        · rw [hs] at h; simp at h
        · rw [hs] at h; simp at h
        · rw [hs] at h
          rcases loginFromPin_shape env with hs2 | ⟨t, hs2⟩ | hs2
          · rw [hs2] at h; simp at h
          · rw [hs2] at h; simp at h
          · rw [hs2] at h
            rcases loginFromToken_shape env with hs3 | ⟨v, hs3⟩ <;>
              rw [hs3] at h <;> simp at h
      · have hf' : bodyIsForm env.body.text = false := by simpa using hf
        rw [login_json_branch hb he hf'] at h
        cases hj : json_loads_message env.body.text with
        | ok m2 =>
          rw [hj] at h
          simp only [RunResult.mk.injEq, Except.error.injEq,
            PyError.assertionError.injEq, and_true] at h
          exact ⟨he, hf', by rw [h]⟩
        | error e =>
          rw [hj] at h
          simp at h
  · rintro ⟨he, hf, hj⟩
    rw [login_json_branch hb he hf, hj]

/-- C2 witness: a concrete JSON error body; the characterization yields
the raised `AssertionError` with the session closed once. -/
theorem invalid_apikey_characterization_witness :
    login apikeyWitnessEnv = ⟨.error (.assertionError "Token is invalid"), 1⟩ :=
  (invalid_apikey_characterization _ (by decide) _).mpr (by decide)

/-- C3 counterexample: the portal renders an error banner (the `.error`
element is found within the timeout) whose text is empty, and the login
raises no `CredentialError`: it proceeds and completes the run. -/
theorem credential_banner_empty_text_cex :
    foundB emptyBanner1Env.errorBanner1 = true ∧
      login emptyBanner1Env = ⟨.ok "TOK3", 1⟩ := by
  decide

/-- C3 (amended): on a run that reaches the post-credential banner
check, a banner found with NON-EMPTY text makes the login quit and
raise `ValueError` with the banner's exact text; when the banner wait
times out — or the banner is present with empty text, so that
`_raise_error` does nothing — no error is raised and the run proceeds
to the PIN step. -/
theorem credential_banner_check (env : Env) (h : reachesCredCheck env) :
    (foundB env.errorBanner1 = true → env.errorBanner1.text ≠ "" →
      login env = ⟨.error (.valueError env.errorBanner1.text), 1⟩) ∧
    (_raise_error env.errorBanner1 = none → login env = loginFromPin env) := by
  obtain ⟨hb, hf, hu, hp, hs⟩ := h
  constructor
  · intro hfound ht
    rw [login_eq_creds hb hf, creds_step hu hp hs, raise_error_eq,
      if_pos ⟨hfound, ht⟩]
  · intro hnone
    rw [login_eq_creds hb hf, creds_step hu hp hs, hnone]

/-- C3 witness: a concrete banner text is raised as the `ValueError`
message with one quit. -/
theorem credential_banner_check_witness :
    login credErrorEnv = ⟨.error (.valueError "Invalid username or password"), 1⟩ :=
  (credential_banner_check _ (by decide)).1 (by decide) (by decide)

/-- C4 counterexample: the URL is unchanged after the PIN submission
and an error banner IS found (with empty text), yet no `PinError` is
raised: the run completes successfully. -/
theorem pin_banner_empty_text_cex :
    pinEmptyBannerEnv.urlAfterPin = pinEmptyBannerEnv.urlBeforePin ∧
      foundB pinEmptyBannerEnv.errorBanner2 = true ∧
      login pinEmptyBannerEnv = ⟨.ok "TOK4", 1⟩ := by
  decide

/-- C4 (amended): on a run that reaches the PIN submission, if the URL
after the settle delay differs from the one recorded before submitting,
the banner check is skipped — no `ValueError` can be raised, whatever
the banner — and the run goes straight to the token extraction; if the
URL is unchanged and a banner with NON-EMPTY text is found, the login
quits and raises `ValueError` with that text. -/
theorem pin_url_banner_check (env : Env) (h : reachesPin env) :
    (env.urlAfterPin ≠ env.urlBeforePin →
      login env = loginFromToken env ∧
        ∀ t q, login env ≠ ⟨.error (.valueError t), q⟩) ∧
    (env.urlAfterPin = env.urlBeforePin → foundB env.errorBanner2 = true →
      env.errorBanner2.text ≠ "" →
      login env = ⟨.error (.valueError env.errorBanner2.text), 1⟩) := by
  constructor
  · intro hu
    have hl : login env = loginFromToken env := login_reaches_token ⟨h, Or.inl hu⟩
    refine ⟨hl, ?_⟩
    intro t q hcon
    rw [hl] at hcon
    rcases loginFromToken_shape env with hs | ⟨v, hs⟩ <;> rw [hs] at hcon <;>
      simp at hcon
  · intro hu hfound ht
    rw [login_reaches_pin h, pin_step h.2.2.1 h.2.2.2, if_pos hu,
      raise_error_eq, if_pos ⟨hfound, ht⟩]

/-- C4 witness: unchanged URL plus a non-empty banner raises the
`ValueError` carrying the banner text, with one quit. -/
theorem pin_url_banner_check_witness :
    login pinErrorEnv = ⟨.error (.valueError "Invalid PIN"), 1⟩ :=
  (pin_url_banner_check _ (by decide)).2 (by decide) (by decide) (by decide)

/-- C5 counterexample: when the username field never appears, the run
raises (`TimeoutException` escapes) with zero `quit` calls — an exit
path on which the session is NOT closed, refuting "closed exactly once
on every exit path". -/
theorem session_leak_on_timeout_cex :
    (login useridMissingEnv).outcome = .error .timeoutException ∧
      (login useridMissingEnv).quitCount = 0 := by
  decide

/-- C5 (amended): at most one quit ever happens on a run, and the quit
count is exactly one precisely on the success path and on the three
detected portal-error paths (invalid-api-key `AssertionError` and the
two banner `ValueError`s); on every other exit (element timeouts, the
raw JSON-body failures, the missing-token `KeyError`) the session is
left open. -/
theorem session_close_characterization (env : Env) :
    (login env).quitCount = closedOn (login env).outcome ∧
      (login env).quitCount ≤ 1 :=
  ⟨login_quit_eq_closedOn env, by
    rw [login_quit_eq_closedOn env]; exact closedOn_le_one _⟩

/-- C6: every element wait is bounded by the fixed `timeout = 5`: a
lookup succeeds exactly when the element appears within 5 time units;
on timeout the `TimeoutException` escapes the run unhandled with the
session left open (quit count 0), for each required element — body,
username, password, either submit button, PIN — while the banner
checks alone reinterpret a timeout as "no error present". -/
theorem element_wait_contract :
    timeout = 5 ∧
    (∀ e : ElementSpec, _get_element_by_css e = .ok e.text ↔
      ∃ t, e.appearsAt = some t ∧ t ≤ 5) ∧
    (∀ e : ElementSpec, foundB e = false →
      _get_element_by_css e = .error .timeoutException ∧ _raise_error e = none) ∧
    (∀ env : Env, foundB env.body = false →
      login env = ⟨.error .timeoutException, 0⟩) ∧
    (∀ env : Env, foundB env.body = true → bodyIsForm env.body.text = true →
      foundB env.userid = false → login env = ⟨.error .timeoutException, 0⟩) ∧
    (∀ env : Env, foundB env.body = true → bodyIsForm env.body.text = true →
      foundB env.userid = true → foundB env.password = false →
      login env = ⟨.error .timeoutException, 0⟩) ∧
    (∀ env : Env, foundB env.body = true → bodyIsForm env.body.text = true →
      foundB env.userid = true → foundB env.password = true →
      foundB env.submit1 = false → login env = ⟨.error .timeoutException, 0⟩) ∧
    (∀ env : Env, reachesCredCheck env → _raise_error env.errorBanner1 = none →
      foundB env.pin = false → login env = ⟨.error .timeoutException, 0⟩) ∧
    (∀ env : Env, reachesCredCheck env → _raise_error env.errorBanner1 = none →
      foundB env.pin = true → foundB env.submit2 = false →
      login env = ⟨.error .timeoutException, 0⟩) := by
  refine ⟨rfl, ?_, ?_, ?_, ?_, ?_, ?_, ?_, ?_⟩
  · intro e
    constructor
    · intro h
      by_cases hf : foundB e = true
      · unfold foundB at hf
        cases he : e.appearsAt with
        | none => rw [he] at hf; cases hf
        | some t =>
          rw [he] at hf
          simp only [decide_eq_true_eq] at hf
          exact ⟨t, rfl, hf⟩
      · rw [getElement_notFound (by simpa using hf)] at h
        cases h
    · rintro ⟨t, ht, hle⟩
      exact getElement_found (by unfold foundB; rw [ht]; simpa using hle)
  · intro e hf
    exact ⟨getElement_notFound hf, by rw [raise_error_eq, if_neg (fun hc => by
      rw [hc.1] at hf; cases hf)]⟩
  · intro env h
    exact login_timeout_body h
  · intro env h1 h2 h3
    rw [login_eq_creds h1 h2]
    unfold loginFromCreds
    rw [getElement_notFound h3]
  · intro env h1 h2 h3 h4
    rw [login_eq_creds h1 h2]
    unfold loginFromCreds
    rw [getElement_found h3, getElement_notFound h4]
  · intro env h1 h2 h3 h4 h5
    rw [login_eq_creds h1 h2]
    unfold loginFromCreds
    rw [getElement_found h3, getElement_found h4, getElement_notFound h5]
  · intro env hc hban hpin
    obtain ⟨hb, hf, hu, hp, hs⟩ := hc
    rw [login_eq_creds hb hf, creds_step hu hp hs, hban]
    unfold loginFromPin
    rw [getElement_notFound hpin]
  · intro env hc hban hpin hsub
    obtain ⟨hb, hf, hu, hp, hs⟩ := hc
    rw [login_eq_creds hb hf, creds_step hu hp hs, hban]
    unfold loginFromPin
    rw [getElement_found hpin, getElement_notFound hsub]

/-- C6 witness: the PIN field appears at time 9, after the 5-unit
timeout; the run escapes with `TimeoutException` and no quit. -/
theorem element_wait_contract_witness :
    login pinLateEnv = ⟨.error .timeoutException, 0⟩ :=
  element_wait_contract.2.2.2.2.2.2.2.1 pinLateEnv (by decide) (by decide) (by decide)

/-- C7 counterexample: a config that parses but lacks `pin` is a load
failure (a warning is logged), yet `api_key`, `username` and `password`
do NOT remain unset — refuting "all four credential fields remain
unset" for every failure. -/
theorem loader_partial_fields_cex :
    get_login_details (.parsed [("api_key", "k7"), ("username", "u7"), ("password", "p7")]) =
      (⟨some "k7", some "u7", some "p7", none⟩, true) ∧
    (get_login_details (.parsed [("api_key", "k7"), ("username", "u7"), ("password", "p7")])).1.api_key ≠ none := by
  decide

/-- C7 (amended): every credential-load failure logs a warning and is
swallowed (the loader is total — construction continues); all four
fields remain unset when the failure is a missing or unreadable file, a
parse failure, or a missing `api_key` (the first field read); a warning
is logged on a parsed config exactly when some field is missing. -/
theorem loader_fail_soft :
    get_login_details .openError = (⟨none, none, none, none⟩, true) ∧
    get_login_details .parseError = (⟨none, none, none, none⟩, true) ∧
    (∀ d, dictFind d "api_key" = none →
      get_login_details (.parsed d) = (⟨none, none, none, none⟩, true)) ∧
    (∀ d, (get_login_details (.parsed d)).2 = true ↔
      (dictFind d "api_key" = none ∨ dictFind d "username" = none ∨
        dictFind d "password" = none ∨ dictFind d "pin" = none)) := by
  refine ⟨rfl, rfl, ?_, ?_⟩
  · intro d hd
    unfold get_login_details
    dsimp only
    rw [hd]
  · intro d
    unfold get_login_details
    cases h1 : dictFind d "api_key" with
    | none => simp [h1]
    | some ak =>
      cases h2 : dictFind d "username" with
      | none => simp [h1, h2]
      | some un =>
        cases h3 : dictFind d "password" with
        | none => simp [h1, h2, h3]
        | some pw =>
          cases h4 : dictFind d "pin" with
          | none => simp [h1, h2, h3, h4]
          | some pn => simp [h1, h2, h3, h4]

/-- C7 witness: a parsed config missing `api_key` leaves all four
fields unset and logs the warning. -/
theorem loader_fail_soft_witness :
    get_login_details (.parsed [("username", "u0")]) =
      (⟨none, none, none, none⟩, true) :=
  loader_fail_soft.2.2.1 _ (by decide)

/-- C8: the banner check tests the found text for truthiness, not the
element's presence: a found banner with empty text raises nothing;
`_raise_error` yields a message exactly when the banner is found within
the timeout with non-empty text; and a run at the post-credential check
with an empty-text banner proceeds to the PIN step exactly as if no
banner were present. -/
theorem empty_banner_not_error :
    (∀ e : ElementSpec, foundB e = true → e.text = "" → _raise_error e = none) ∧
    (∀ e : ElementSpec, ∀ t, _raise_error e = some t ↔
      foundB e = true ∧ t = e.text ∧ t ≠ "") ∧
    (∀ env : Env, reachesCredCheck env → env.errorBanner1.text = "" →
      login env = loginFromPin env) := by
  refine ⟨?_, ?_, ?_⟩
  · intro e hf ht
    rw [raise_error_eq, if_neg (fun hc => hc.2 ht)]
  · intro e t
    rw [raise_error_eq]
    by_cases h : foundB e = true ∧ e.text ≠ ""
    · rw [if_pos h]
      constructor
      · intro hs
        injection hs with hs
        exact ⟨h.1, hs.symm, hs ▸ h.2⟩
      · rintro ⟨_, ht, _⟩
        rw [ht]
    · rw [if_neg h]
      constructor
      · intro hs; cases hs
      · rintro ⟨hf, ht, hne⟩
        exact absurd ⟨hf, ht ▸ hne⟩ h
  · intro env hc ht
    obtain ⟨hb, hf, hu, hp, hs⟩ := hc
    rw [login_eq_creds hb hf, creds_step hu hp hs, raise_error_eq,
      if_neg (fun hcon => hcon.2 ht)]

/-- C8 witness: a banner found at time 3 with empty text; the run is
the same as the run that continues from the PIN step. -/
theorem empty_banner_not_error_witness :
    login emptyBanner1FoundEnv = loginFromPin emptyBanner1FoundEnv :=
  empty_banner_not_error.2.2 emptyBanner1FoundEnv (by decide) (by decide)

/-- C9: on a run that reaches the token extraction with a final URL
whose query string has no `request_token` parameter, the unguarded dict
subscript raises `KeyError('request_token')`, which escapes `__login`
unhandled with the session left open (quit count 0). -/
theorem missing_token_keyerror (env : Env) (henv : reachesToken env)
    (hq : parse_qs_values (urlparse_query env.urlFinal) "request_token" = []) :
    login env = ⟨.error (.keyError "request_token"), 0⟩ := by
  rw [login_reaches_token henv]
  unfold loginFromToken
  rw [hq]

/-- C9 witness: a wrong PIN leaves the URL on the login page with no
token parameter; the run ends in `KeyError` with the session open. -/
theorem missing_token_keyerror_witness :
    login wrongPinEnv = ⟨.error (.keyError "request_token"), 0⟩ :=
  missing_token_keyerror wrongPinEnv (by decide) (by decide)

/-- C10: the loader assigns `api_key`, `username`, `password`, `pin` in
that order inside one `try`, so a missing later key keeps every field
read before it and leaves the missing one and all after it unset — the
load is not atomic on partial failure. -/
theorem loader_sequential_assignment :
    (∀ d ak, dictFind d "api_key" = some ak → dictFind d "username" = none →
      get_login_details (.parsed d) = (⟨some ak, none, none, none⟩, true)) ∧
    (∀ d ak un, dictFind d "api_key" = some ak → dictFind d "username" = some un →
      dictFind d "password" = none →
      get_login_details (.parsed d) = (⟨some ak, some un, none, none⟩, true)) ∧
    (∀ d ak un pw, dictFind d "api_key" = some ak → dictFind d "username" = some un →
      dictFind d "password" = some pw → dictFind d "pin" = none →
      get_login_details (.parsed d) = (⟨some ak, some un, some pw, none⟩, true)) := by
  refine ⟨?_, ?_, ?_⟩
  · intro d ak h1 h2
    unfold get_login_details
    dsimp only
    rw [h1, h2]
  · intro d ak un h1 h2 h3
    unfold get_login_details
    dsimp only
    rw [h1, h2, h3]
  · intro d ak un pw h1 h2 h3 h4
    unfold get_login_details
    dsimp only
    rw [h1, h2, h3, h4]

/-- C10 witness: a config with `api_key` and `username` but no
`password` keeps the two fields read and leaves the rest unset. -/
theorem loader_sequential_assignment_witness :
    get_login_details (.parsed [("api_key", "kA"), ("username", "uA")]) =
      (⟨some "kA", some "uA", none, none⟩, true) :=
  loader_sequential_assignment.2.1 _ "kA" "uA" (by decide) (by decide) (by decide)

end KiteLogin
